import Mathlib

/-!
Verification development for the message-risk pipeline of
`src/ai/riskAnalyzer.js` together with the alert gate of `src/index.js`.

Modelling conventions:
* JS strings are `List Char`; `content.toLowerCase()` is `List.map Char.toLower`
  (the trigger terms are lowercase ASCII or caseless, so ASCII lowering is
  exact on every character that can influence a match).
* JS numbers are `ℚ`; environment-supplied thresholds, the wall clock and the
  external sentiment primitive are explicit parameters.
* The regex `/(.)\1{4,}/` is a scan for five consecutive equal characters whose
  first character is not a line terminator, because the dot of a JS regex
  without the `s` flag matches every character except `\n`, `\r`, U+2028 and U+2029.
* The argument of `analyzeMessage` is a `JSValue` so that the
  `!content || typeof content !== 'string'` guard can be stated for null,
  undefined, numeric, boolean and string arguments alike.
-/

/-- Model of a JavaScript value as far as the `analyzeMessage` guard can
observe it. -/
inductive JSValue where
  | nullV : JSValue
  | undefinedV : JSValue
  | str : List Char → JSValue
  | num : ℚ → JSValue
  | boolV : Bool → JSValue

/-- JS truthiness test restricted to the values of `JSValue`
(`null`, `undefined`, the empty string, `0` and `false` are falsy). -/
def jsFalsy : JSValue → Bool
  | JSValue.nullV => true
  | JSValue.undefinedV => true
  | JSValue.str s => s.isEmpty
  | JSValue.num q => q == 0
  | JSValue.boolV b => !b

/-- The `typeof content === 'string'` test. -/
def isStringVal : JSValue → Bool
  | JSValue.str _ => true
  | _ => false

/-- Character payload of a string value (irrelevant default elsewhere). -/
def strOf : JSValue → List Char
  | JSValue.str s => s
  | _ => []

/-- Scan of `hay.includes(needle)` positions: true when `needle` occurs as a
contiguous substring starting at some position of the scanned list. -/
def includesFrom (needle : List Char) : List Char → Bool
  | [] => needle.isEmpty
  | c :: t => needle.isPrefixOf (c :: t) || includesFrom needle t

/-- JS `hay.includes(needle)`. -/
def jsIncludes (hay needle : List Char) : Bool :=
  includesFrom needle hay

/-- Line terminators that the dot of a JS regex (without the `s` flag) does
not match. -/
def isLineTerminator (c : Char) : Bool :=
  c == '\n' || c == '\r' || c == Char.ofNat 8232 || c == Char.ofNat 8233

/-- Four further copies of `a` at the head of the list (the `\1{4,}`
backreference part of the spam regex; four copies suffice for a match). -/
def startsRun (a : Char) : List Char → Bool
  | b :: c :: d :: e :: _ => a == b && a == c && a == d && a == e
  | _ => false

/-- The test `/(.)\1{4,}/.test(content)`: some position holds a character that
the dot can match (not a line terminator) followed by four equal characters. -/
def hasSpamRun : List Char → Bool
  | [] => false
  | a :: rest => (!(isLineTerminator a) && startsRun a rest) || hasSpamRun rest

/-- Helper of `jsSetDedup`: drop every element already seen, keeping first
occurrences in order. -/
def jsSetDedupAux : List String → List String → List String
  | _, [] => []
  | seen, x :: xs =>
    if seen.contains x then jsSetDedupAux seen xs
    else x :: jsSetDedupAux (x :: seen) xs

/-- JS `[...new Set(flags)]`: deduplication keeping first occurrences. -/
def jsSetDedup (l : List String) : List String :=
  jsSetDedupAux [] l

/-- ASCII uppercase test, the character class `[A-Z]` of the caps regex. -/
def isAsciiUpper (c : Char) : Bool :=
  decide ('A' ≤ c) && decide (c ≤ 'Z')

def violenceName : String := "violence"
def hateName : String := "hate"
def radicalizationName : String := "radicalization"
def threatsName : String := "threats"
def toxicityName : String := "toxicity"
def excessiveCapsFlag : String := "excessive_caps"
def spamPatternFlag : String := "spam_pattern"

/-- Trigger terms of the `violence` category, in source order. -/
def violenceTerms : List (List Char) :=
  [ "kill".toList, "murder".toList, "attack".toList, "destroy".toList,
    "bomb".toList, "weapon".toList, "gun".toList, "shoot".toList,
    "stab".toList, "assault".toList, "hurt".toList, "harm".toList,
    "fight".toList, "war".toList, "blood".toList, "death".toList ]

/-- Trigger terms of the `hate` category, in source order. -/
def hateTerms : List (List Char) :=
  [ "hate".toList, "racist".toList, "nazi".toList, "supremacist".toList,
    "genocide".toList, "ethnic cleansing".toList, "inferior".toList,
    "subhuman".toList, "vermin".toList, "scum".toList, "trash".toList ]

/-- Trigger terms of the `radicalization` category, in source order. -/
def radicalizationTerms : List (List Char) :=
  [ "jihad".toList, "crusade".toList, "holy war".toList, "martyr".toList,
    "extremist".toList, "radical".toList, "revolution".toList,
    "uprising".toList, "overthrow".toList, "manifesto".toList,
    "propaganda".toList ]

/-- Trigger terms of the `threats` category, in source order. -/
def threatsTerms : List (List Char) :=
  [ "threat".toList, "threaten".toList, "going to".toList,
    "will kill".toList, "watch out".toList, "pay for".toList,
    "revenge".toList, "retaliate".toList, "get you".toList,
    "coming for".toList ]

/-- Trigger terms of the `toxicity` category, in source order. -/
def toxicityTerms : List (List Char) :=
  [ "kys".toList, "suicide".toList, "die".toList, "worthless".toList,
    "pathetic".toList, "loser".toList, "idiot".toList, "stupid".toList,
    "dumb".toList, "trash".toList, "garbage".toList, "废物".toList ]

/-- The `RISK_PATTERNS` lexicon of `riskAnalyzer.js`, in source order. -/
def RISK_PATTERNS : List (String × List (List Char)) :=
  [ (violenceName, violenceTerms),
    (hateName, hateTerms),
    (radicalizationName, radicalizationTerms),
    (threatsName, threatsTerms),
    (toxicityName, toxicityTerms) ]

/-- Result record of `analyzeMessage`. `analyzedAt` is optional because the
degenerate early return omits the field entirely. -/
structure RiskAssessment where
  riskScore : ℚ
  sentimentScore : ℚ
  flags : List String
  categories : List (String × Nat × List (List Char))
  analyzedAt : Option String
deriving DecidableEq

/-- The early-return value of `analyzeMessage` for falsy or non-string
arguments. -/
def zeroAssessment : RiskAssessment :=
  { riskScore := 0, sentimentScore := 0, flags := [], categories := [],
    analyzedAt := none }

/-- Mutable locals of the category-matching loop of `analyzeMessage`. -/
structure ClassifierAcc where
  flags : List String
  categories : List (String × Nat × List (List Char))
  totalRisk : ℚ
deriving DecidableEq

/-- Keywords of one category that occur in the lowercased content, in lexicon
order; the loop's `matchedWords`, whose length is its `matchCount`. -/
def matchedWords (lowerContent : List Char) (keywords : List (List Char)) :
    List (List Char) :=
  keywords.filter (fun k => jsIncludes lowerContent k)

/-- One iteration of the `for (const [category, keywords] of ...)` loop. -/
def categoryStep (lowerContent : List Char) (acc : ClassifierAcc)
    (entry : String × List (List Char)) : ClassifierAcc :=
  let mw := matchedWords lowerContent entry.2
  if 0 < mw.length then
    { flags := acc.flags ++ [entry.1],
      categories := acc.categories ++ [(entry.1, mw.length, mw)],
      totalRisk := acc.totalRisk + min ((mw.length : ℚ) * 0.15) 0.5 }
  else acc

/-- Risk contribution of the sentiment channel:
`sentimentScore < 0 ? Math.min(Math.abs(sentimentScore) / 20, 0.3) : 0`. -/
def sentimentRisk (polarity : ℚ) : ℚ :=
  if polarity < 0 then min (|polarity| / 20) 0.3 else 0

/-- Number of `[A-Z]` matches in the content. -/
def capsCount (s : List Char) : Nat :=
  (s.filter isAsciiUpper).length

/-- The `capsRatio` local: uppercase matches over string length. -/
def capsRatio (s : List Char) : ℚ :=
  (capsCount s : ℚ) / (s.length : ℚ)

/-- Body of `analyzeMessage` after the guard, for string content. The
sentiment primitive `sent` and the clock reading `now` are parameters. -/
def analyzeBody (sent : List Char → ℚ) (now : String) (content : List Char) :
    RiskAssessment :=
  let lowerContent := content.map Char.toLower
  let sentimentScore := sent content
  let acc0 : ClassifierAcc :=
    { flags := [], categories := [], totalRisk := sentimentRisk sentimentScore }
  let acc1 := RISK_PATTERNS.foldl (categoryStep lowerContent) acc0
  let acc2 :=
    if capsRatio content > 0.5 ∧ content.length > 10 then
      { acc1 with flags := acc1.flags ++ [excessiveCapsFlag],
                  totalRisk := acc1.totalRisk + 0.1 }
    else acc1
  let acc3 :=
    if hasSpamRun content then
      { acc2 with flags := acc2.flags ++ [spamPatternFlag],
                  totalRisk := acc2.totalRisk + 0.05 }
    else acc2
  { riskScore := min acc3.totalRisk 1,
    sentimentScore := sentimentScore,
    flags := jsSetDedup acc3.flags,
    categories := acc3.categories,
    analyzedAt := some now }

/-- The exported `analyzeMessage`, including its degeneracy guard
`if (!content || typeof content !== 'string') return zero`. -/
def analyzeMessage (sent : List Char → ℚ) (now : String) (content : JSValue) :
    RiskAssessment :=
  if jsFalsy content || !(isStringVal content) then zeroAssessment
  else analyzeBody sent now (strOf content)

/-- Per-author profile record of `updateRiskProfile`. -/
structure RiskProfile where
  messageCount : Nat
  totalRiskScore : ℚ
  averageRiskScore : ℚ
  highRiskCount : Nat
  flagHistory : List (String × Nat)
  lastAnalyzed : Option String
  trendingUp : Bool
deriving DecidableEq

/-- All-zero profile materialized when `updateRiskProfile` receives a falsy
profile. -/
def defaultProfile : RiskProfile :=
  { messageCount := 0, totalRiskScore := 0, averageRiskScore := 0,
    highRiskCount := 0, flagHistory := [], lastAnalyzed := none,
    trendingUp := false }

/-- Count stored for a flag in the history object: value at the first
occurrence of the key, 0 when the key is absent. -/
def flagCount : List (String × Nat) → String → Nat
  | [], _ => 0
  | kv :: t, f => if kv.1 = f then kv.2 else flagCount t f

/-- One iteration of the flag-history loop: create the key at 0 when absent,
then add 1. -/
def incFlag (fh : List (String × Nat)) (f : String) : List (String × Nat) :=
  if fh.any (fun kv => decide (kv.1 = f)) then
    fh.map (fun kv => if kv.1 = f then (kv.1, kv.2 + 1) else kv)
  else fh ++ [(f, 1)]

/-- The `decayFactor` constant of `updateRiskProfile`. -/
def decayFactor : ℚ := 0.95

/-- The exported `updateRiskProfile`. `highThreshold` models
`parseFloat(process.env.RISK_THRESHOLD_HIGH || 0.8)` and `now` the clock. -/
def updateRiskProfile (highThreshold : ℚ) (now : String)
    (userProfile : Option RiskProfile) (analysis : RiskAssessment) :
    RiskProfile :=
  let p := userProfile.getD defaultProfile
  let messageCount := p.messageCount + 1
  let totalRiskScore := p.totalRiskScore * decayFactor + analysis.riskScore
  let averageRiskScore :=
    totalRiskScore / ((messageCount : ℚ) * decayFactor + 1)
  let highRiskCount :=
    if analysis.riskScore ≥ highThreshold then p.highRiskCount + 1
    else p.highRiskCount
  let flagHistory := analysis.flags.foldl incFlag p.flagHistory
  let trendingUp :=
    if messageCount > 5 then
      decide (analysis.riskScore > averageRiskScore * 1.2)
    else p.trendingUp
  { messageCount := messageCount, totalRiskScore := totalRiskScore,
    averageRiskScore := averageRiskScore, highRiskCount := highRiskCount,
    flagHistory := flagHistory, lastAnalyzed := some now,
    trendingUp := trendingUp }

def lowLabel : String := "Low"
def mediumLabel : String := "Medium"
def highLabel : String := "High"
def criticalLabel : String := "Critical"

/-- The exported `getRiskLevel`, with the three environment thresholds as
parameters (defaults 0.3 / 0.6 / 0.8). -/
def getRiskLevel (low medium high : ℚ) (riskScore : ℚ) : String :=
  if riskScore < low then lowLabel
  else if riskScore < medium then mediumLabel
  else if riskScore < high then highLabel
  else criticalLabel

/-- The alert gate of the MessageCreate handler in `index.js`:
`analysis.riskScore >= parseFloat(process.env.RISK_THRESHOLD_HIGH || 0.8)`. -/
def shouldAlert (highThreshold : ℚ) (riskScore : ℚ) : Bool :=
  decide (riskScore ≥ highThreshold)

/-- Sequential application of `updateRiskProfile` to a stream of
assessments. -/
def applyUpdates (highThreshold : ℚ) (now : String) (p : RiskProfile)
    (l : List RiskAssessment) : RiskProfile :=
  l.foldl (fun q a => updateRiskProfile highThreshold now (some q) a) p

/-- Risk contribution of one lexicon entry, as accumulated by
`categoryStep`. -/
def categoryContrib (lowerContent : List Char)
    (entry : String × List (List Char)) : ℚ :=
  if 0 < (matchedWords lowerContent entry.2).length then
    min (((matchedWords lowerContent entry.2).length : ℚ) * 0.15) 0.5
  else 0

/-- Total category-channel contribution over the whole lexicon. -/
def categoryRiskTotal (lowerContent : List Char) : ℚ :=
  (RISK_PATTERNS.map (categoryContrib lowerContent)).sum

/-- The `categories` record entry produced for one lexicon entry, if any. -/
def catEntry (lowerContent : List Char) (entry : String × List (List Char)) :
    Option (String × Nat × List (List Char)) :=
  if 0 < (matchedWords lowerContent entry.2).length then
    some (entry.1, (matchedWords lowerContent entry.2).length,
      matchedWords lowerContent entry.2)
  else none

/-- The flag pushed for one lexicon entry, if any. -/
def catFlag (lowerContent : List Char) (entry : String × List (List Char)) :
    Option String :=
  if 0 < (matchedWords lowerContent entry.2).length then some entry.1
  else none

/-- Numeric invariant maintained by `updateRiskProfile` along any stream of
unit-interval assessments: the decayed total stays below the decayed
effective-count denominator, which pins the derived average into `[0,1]`. -/
def profileInvariant (p : RiskProfile) : Prop :=
  0 ≤ p.totalRiskScore
    ∧ p.totalRiskScore ≤ (p.messageCount : ℚ) * decayFactor + 1
    ∧ 0 ≤ p.averageRiskScore ∧ p.averageRiskScore ≤ 1

/-- Fixed timestamp used for concrete runs. -/
def tsSample : String := "2024-01-01T00:00:00.000Z"

/-- Sentiment primitive returning polarity 0 on every input. -/
def sentZero : List Char → ℚ := fun _ => 0

/-- Profile of an author with five prior messages and no accumulated risk. -/
def profileFive : RiskProfile :=
  { defaultProfile with messageCount := 5 }

/-- Assessment with the maximal unit risk score and no flags. -/
def assessOne : RiskAssessment :=
  { riskScore := 1, sentimentScore := 0, flags := [], categories := [],
    analyzedAt := none }

/-- Assessment with risk score 1/2 carrying a `violence` flag. -/
def assessHalf : RiskAssessment :=
  { riskScore := 1/2, sentimentScore := 0, flags := [violenceName],
    categories := [], analyzedAt := none }

/-- Five-character content consisting solely of newlines. -/
def newlineRun : List Char := List.replicate 5 '\n'

/-- Twelve-character all-uppercase content. -/
def capsContent : List Char := "AAAAAAAAAAAA".toList

/-- Elements of the dedup helper: kept iff present in the input and not
already seen. -/
theorem mem_jsSetDedupAux (x : String) :
    ∀ (l seen : List String),
      x ∈ jsSetDedupAux seen l ↔ x ∈ l ∧ ¬ x ∈ seen := by
  intro l
  induction l with
  | nil => intro seen; simp [jsSetDedupAux]
  | cons y t ih =>
    intro seen
    by_cases hy : seen.contains y
    · rw [jsSetDedupAux, if_pos hy, ih]
      have hy' : y ∈ seen := by
        simpa using hy
      constructor
      · rintro ⟨hxt, hxs⟩
        exact ⟨List.mem_cons_of_mem _ hxt, hxs⟩
      · rintro ⟨hx, hxs⟩
        rcases List.mem_cons.mp hx with rfl | hxt
        · exact absurd hy' hxs
        · exact ⟨hxt, hxs⟩
    · rw [jsSetDedupAux, if_neg hy, List.mem_cons, ih]
      constructor
      · rintro (rfl | ⟨hxt, hxs⟩)
        · refine ⟨List.mem_cons_self _ _, ?_⟩
          simpa using hy
        · refine ⟨List.mem_cons_of_mem _ hxt, fun hc => hxs (List.mem_cons_of_mem _ hc)⟩
      · rintro ⟨hx, hxs⟩
        by_cases hxy : x = y
        · exact Or.inl hxy
        · rcases List.mem_cons.mp hx with h0 | hxt
          · exact absurd h0 hxy
          · refine Or.inr ⟨hxt, fun hc => ?_⟩
            rcases List.mem_cons.mp hc with h1 | h2
            · exact hxy h1
            · exact hxs h2

/-- Deduplication preserves membership. -/
theorem mem_jsSetDedup (x : String) (l : List String) :
    x ∈ jsSetDedup l ↔ x ∈ l := by
  rw [jsSetDedup, mem_jsSetDedupAux]
  simp

/-- Unfolding of `categoryStep` in the matching case. -/
theorem categoryStep_pos (lc : List Char) (acc : ClassifierAcc)
    (e : String × List (List Char))
    (h : 0 < (matchedWords lc e.2).length) :
    categoryStep lc acc e =
      { flags := acc.flags ++ [e.1],
        categories := acc.categories ++
          [(e.1, (matchedWords lc e.2).length, matchedWords lc e.2)],
        totalRisk := acc.totalRisk +
          min (((matchedWords lc e.2).length : ℚ) * 0.15) 0.5 } := by
  simp [categoryStep, h]

/-- Unfolding of `categoryStep` in the non-matching case. -/
theorem categoryStep_neg (lc : List Char) (acc : ClassifierAcc)
    (e : String × List (List Char))
    (h : ¬ 0 < (matchedWords lc e.2).length) :
    categoryStep lc acc e = acc := by
  simp [categoryStep, h]

/-- Complete description of the category loop: flags, category entries and
risk contribution of a fold over any suffix of the lexicon. -/
theorem foldl_categoryStep_spec (lc : List Char) :
    ∀ (entries : List (String × List (List Char))) (acc : ClassifierAcc),
      (List.foldl (categoryStep lc) acc entries).flags
          = acc.flags ++ entries.filterMap (catFlag lc)
      ∧ (List.foldl (categoryStep lc) acc entries).categories
          = acc.categories ++ entries.filterMap (catEntry lc)
      ∧ (List.foldl (categoryStep lc) acc entries).totalRisk
          = acc.totalRisk + (entries.map (categoryContrib lc)).sum := by
  intro entries
  induction entries with
  | nil => intro acc; simp
  | cons e t ih =>
    intro acc
    obtain ⟨ih1, ih2, ih3⟩ := ih (categoryStep lc acc e)
    by_cases h : 0 < (matchedWords lc e.2).length
    · rw [List.foldl_cons] at *
      refine ⟨?_, ?_, ?_⟩
      · rw [ih1, categoryStep_pos lc acc e h]
        simp [catFlag, h]
      · rw [ih2, categoryStep_pos lc acc e h]
        simp [catEntry, h]
      · rw [ih3, categoryStep_pos lc acc e h]
        simp only [List.map_cons, List.sum_cons, categoryContrib, if_pos h]
        ring
    · rw [List.foldl_cons] at *
      refine ⟨?_, ?_, ?_⟩
      · rw [ih1, categoryStep_neg lc acc e h]
        simp [catFlag, h]
      · rw [ih2, categoryStep_neg lc acc e h]
        simp [catEntry, h]
      · rw [ih3, categoryStep_neg lc acc e h]
        simp only [List.map_cons, List.sum_cons, categoryContrib, if_neg h]
        ring

/-- Flags of a classified string: deduplicated category names followed by the
two behavioral tags, each gated by its heuristic. -/
theorem analyzeBody_flags (sent : List Char → ℚ) (now : String)
    (content : List Char) :
    (analyzeBody sent now content).flags =
      jsSetDedup ((RISK_PATTERNS.filterMap (catFlag (content.map Char.toLower))
        ++ (if capsRatio content > 0.5 ∧ content.length > 10 then
              [excessiveCapsFlag] else []))
        ++ (if hasSpamRun content then [spamPatternFlag] else [])) := by
  obtain ⟨h1, _, _⟩ :=
    foldl_categoryStep_spec (content.map Char.toLower) RISK_PATTERNS
      { flags := [], categories := [], totalRisk := sentimentRisk (sent content) }
  simp only [analyzeBody]
  by_cases hc : capsRatio content > 0.5 ∧ content.length > 10 <;>
    by_cases hs : hasSpamRun content <;>
      simp [hc, hs, h1]

/-- Category entries of a classified string: exactly the lexicon entries with
a positive match count, in lexicon order. -/
theorem analyzeBody_categories (sent : List Char → ℚ) (now : String)
    (content : List Char) :
    (analyzeBody sent now content).categories =
      RISK_PATTERNS.filterMap (catEntry (content.map Char.toLower)) := by
  obtain ⟨_, h2, _⟩ :=
    foldl_categoryStep_spec (content.map Char.toLower) RISK_PATTERNS
      { flags := [], categories := [], totalRisk := sentimentRisk (sent content) }
  by_cases hc : capsRatio content > 0.5 ∧ content.length > 10 <;>
    by_cases hs : hasSpamRun content <;>
      simp [analyzeBody, hc, hs, h2]

/-- Risk-score decomposition of a classified string: clamp at 1 of the sum of
the sentiment channel, the category channel and the two behavioral
heuristics. -/
theorem analyzeBody_riskScore (sent : List Char → ℚ) (now : String)
    (content : List Char) :
    (analyzeBody sent now content).riskScore =
      min (sentimentRisk (sent content)
        + categoryRiskTotal (content.map Char.toLower)
        + (if capsRatio content > 0.5 ∧ content.length > 10 then 0.1 else 0)
        + (if hasSpamRun content then 0.05 else 0)) 1 := by
  obtain ⟨_, _, h3⟩ :=
    foldl_categoryStep_spec (content.map Char.toLower) RISK_PATTERNS
      { flags := [], categories := [], totalRisk := sentimentRisk (sent content) }
  by_cases hc : capsRatio content > 0.5 ∧ content.length > 10 <;>
    by_cases hs : hasSpamRun content <;>
      simp [analyzeBody, hc, hs, h3, categoryRiskTotal]

/-- Sentiment of a classified string is the raw polarity. -/
theorem analyzeBody_sentiment (sent : List Char → ℚ) (now : String)
    (content : List Char) :
    (analyzeBody sent now content).sentimentScore = sent content := by
  simp [analyzeBody]

/-- Timestamp of a classified string is always present. -/
theorem analyzeBody_analyzedAt (sent : List Char → ℚ) (now : String)
    (content : List Char) :
    (analyzeBody sent now content).analyzedAt = some now := by
  simp [analyzeBody]

/-- The sentiment channel contributes a nonnegative amount. -/
theorem sentimentRisk_nonneg (q : ℚ) : 0 ≤ sentimentRisk q := by
  unfold sentimentRisk
  split_ifs with h
  · exact le_min (by positivity) (by norm_num)
  · exact le_refl 0

/-- The sentiment channel contributes at most 0.3. -/
theorem sentimentRisk_le (q : ℚ) : sentimentRisk q ≤ 0.3 := by
  unfold sentimentRisk
  split_ifs with h
  · exact min_le_right _ _
  · norm_num

/-- Each lexicon entry contributes a nonnegative amount. -/
theorem categoryContrib_nonneg (lc : List Char)
    (e : String × List (List Char)) : 0 ≤ categoryContrib lc e := by
  unfold categoryContrib
  split_ifs with h
  · exact le_min (by positivity) (by norm_num)
  · exact le_refl 0

/-- The category channel contributes a nonnegative amount in total. -/
theorem categoryRiskTotal_nonneg (lc : List Char) :
    0 ≤ categoryRiskTotal lc := by
  unfold categoryRiskTotal
  apply List.sum_nonneg
  intro x hx
  obtain ⟨e, _, rfl⟩ := List.mem_map.mp hx
  exact categoryContrib_nonneg lc e

/-- Incrementing the entry of flag `f` never lowers the stored count of any
flag `g`. -/
theorem flagCount_bump_ge (f g : String) :
    ∀ fh : List (String × Nat),
      flagCount fh g ≤
        flagCount (fh.map (fun kv => if kv.1 = f then (kv.1, kv.2 + 1) else kv))
          g := by
  intro fh
  induction fh with
  | nil => simp [flagCount]
  | cons kv t ih =>
    obtain ⟨k, v⟩ := kv
    by_cases hk : k = f
    · subst hk
      by_cases hg : k = g
      · subst hg
        simp [flagCount]
      · simpa [flagCount, hg] using ih
    · by_cases hg : k = g
      · subst hg
        simp [flagCount, hk]
      · simpa [flagCount, hk, hg] using ih

/-- Appending a fresh entry never lowers the stored count of any flag. -/
theorem flagCount_append_ge (f g : String) :
    ∀ fh : List (String × Nat),
      flagCount fh g ≤ flagCount (fh ++ [(f, 1)]) g := by
  intro fh
  induction fh with
  | nil => simp [flagCount]
  | cons kv t ih =>
    obtain ⟨k, v⟩ := kv
    by_cases hg : k = g <;> simp [flagCount, hg, ih]

/-- Bumping one flag never lowers the stored count of any flag. -/
theorem flagCount_incFlag_mono (fh : List (String × Nat)) (f g : String) :
    flagCount fh g ≤ flagCount (incFlag fh f) g := by
  unfold incFlag
  split_ifs with h
  · exact flagCount_bump_ge f g fh
  · exact flagCount_append_ge f g fh

/-- Folding the flag loop over any flag list never lowers any count. -/
theorem flagCount_foldl_mono (flags : List String) :
    ∀ (fh : List (String × Nat)) (g : String),
      flagCount fh g ≤ flagCount (flags.foldl incFlag fh) g := by
  induction flags with
  | nil => intro fh g; simp
  | cons f t ih =>
    intro fh g
    calc flagCount fh g ≤ flagCount (incFlag fh f) g :=
          flagCount_incFlag_mono fh f g
      _ ≤ flagCount (t.foldl incFlag (incFlag fh f)) g := ih _ g
      _ = flagCount ((f :: t).foldl incFlag fh) g := by simp

/-- Field-by-field description of one profile update (for an existing
profile). -/
theorem updateRiskProfile_fields (th : ℚ) (now : String) (p : RiskProfile)
    (a : RiskAssessment) :
    (updateRiskProfile th now (some p) a).messageCount = p.messageCount + 1
    ∧ (updateRiskProfile th now (some p) a).totalRiskScore
        = p.totalRiskScore * decayFactor + a.riskScore
    ∧ (updateRiskProfile th now (some p) a).averageRiskScore
        = (p.totalRiskScore * decayFactor + a.riskScore)
          / (((p.messageCount : ℚ) + 1) * decayFactor + 1)
    ∧ (updateRiskProfile th now (some p) a).highRiskCount
        = (if a.riskScore ≥ th then p.highRiskCount + 1 else p.highRiskCount)
    ∧ (updateRiskProfile th now (some p) a).flagHistory
        = a.flags.foldl incFlag p.flagHistory
    ∧ (updateRiskProfile th now (some p) a).trendingUp
        = (if p.messageCount + 1 > 5 then
            decide (a.riskScore >
              (p.totalRiskScore * decayFactor + a.riskScore)
                / (((p.messageCount : ℚ) + 1) * decayFactor + 1) * 1.2)
          else p.trendingUp) := by
  refine ⟨rfl, rfl, ?_, rfl, rfl, ?_⟩ <;>
    simp [updateRiskProfile]

/-- One update preserves the numeric profile invariant when the incoming
score lies in the unit interval. -/
theorem updateRiskProfile_preserves_invariant (th : ℚ) (now : String)
    (p : RiskProfile) (a : RiskAssessment)
    (ha0 : 0 ≤ a.riskScore) (ha1 : a.riskScore ≤ 1)
    (hp : profileInvariant p) :
    profileInvariant (updateRiskProfile th now (some p) a) := by
  obtain ⟨ht0, ht1, _, _⟩ := hp
  obtain ⟨hmc, htot, havg, _, _, _⟩ := updateRiskProfile_fields th now p a
  have hden : (0 : ℚ) < ((p.messageCount : ℚ) + 1) * decayFactor + 1 := by
    have : (0 : ℚ) ≤ (p.messageCount : ℚ) := Nat.cast_nonneg _
    unfold decayFactor
    nlinarith
  have htot0 : 0 ≤ p.totalRiskScore * decayFactor + a.riskScore := by
    unfold decayFactor
    nlinarith
  have htot1 : p.totalRiskScore * decayFactor + a.riskScore
      ≤ ((p.messageCount : ℚ) + 1) * decayFactor + 1 := by
    have hmc0 : (0 : ℚ) ≤ (p.messageCount : ℚ) := Nat.cast_nonneg _
    unfold decayFactor at ht1 ⊢
    nlinarith
  refine ⟨?_, ?_, ?_, ?_⟩
  · rw [htot]
    exact htot0
  · rw [htot, hmc]
    push_cast
    exact htot1
  · rw [havg]
    exact div_nonneg htot0 (le_of_lt hden)
  · rw [havg]
    rw [div_le_one hden]
    exact htot1

/-- The default profile satisfies the numeric invariant. -/
theorem defaultProfile_invariant : profileInvariant defaultProfile := by
  refine ⟨le_refl 0, ?_, le_refl 0, ?_⟩ <;>
    simp [defaultProfile, decayFactor]

/-- Any profile produced from the default profile by a stream of
unit-interval assessments satisfies the numeric invariant. -/
theorem applyUpdates_invariant (th : ℚ) (now : String) :
    ∀ (l : List RiskAssessment) (p : RiskProfile),
      (∀ b ∈ l, 0 ≤ b.riskScore ∧ b.riskScore ≤ 1) →
      profileInvariant p →
      profileInvariant (applyUpdates th now p l) := by
  intro l
  induction l with
  | nil => intro p _ hp; simpa [applyUpdates] using hp
  | cons a t ih =>
    intro p hl hp
    have ha := hl a (List.mem_cons_self a t)
    have ht : ∀ b ∈ t, 0 ≤ b.riskScore ∧ b.riskScore ≤ 1 :=
      fun b hb => hl b (List.mem_cons_of_mem a hb)
    have hstep := updateRiskProfile_preserves_invariant th now p a ha.1 ha.2 hp
    simpa [applyUpdates] using ih (updateRiskProfile th now (some p) a) ht hstep

/-- On a nonempty string argument the guard falls through to the analysis
body. -/
theorem analyzeMessage_str (sent : List Char → ℚ) (now : String)
    (s : List Char) (hs : s ≠ []) :
    analyzeMessage sent now (JSValue.str s) = analyzeBody sent now s := by
  have hfalsy : jsFalsy (JSValue.str s) = false := by
    simp [jsFalsy, List.isEmpty_iff, hs]
  simp [analyzeMessage, hfalsy, isStringVal, strOf]

/-- A five-long run of a non-line-terminator character anywhere in the content
makes the spam regex match. -/
theorem hasSpamRun_of_run (c : Char) (hc : isLineTerminator c = false) :
    ∀ (pre rest : List Char),
      hasSpamRun (pre ++ List.replicate 5 c ++ rest) = true := by
  intro pre
  induction pre with
  | nil =>
    intro rest
    simp only [List.nil_append]
    show hasSpamRun (c :: c :: c :: c :: c :: rest) = true
    simp [hasSpamRun, startsRun, hc]
  | cons a t ih =>
    intro rest
    simp only [List.cons_append]
    rw [hasSpamRun, ih rest, Bool.or_true]

/-- C1: for every profile and assessment, the updated profile satisfies
messageCount1 = messageCount + 1, totalRiskScore1 = totalRiskScore * 0.95 +
riskScore, averageRiskScore1 = totalRiskScore1 / (messageCount1 * 0.95 + 1)
with the already-incremented count in the denominator, and highRiskCount is
incremented exactly when riskScore reaches the configured high threshold. -/
theorem C1_update_profile_equations (th : ℚ) (now : String) (p : RiskProfile)
    (a : RiskAssessment) :
    (updateRiskProfile th now (some p) a).messageCount = p.messageCount + 1
    ∧ (updateRiskProfile th now (some p) a).totalRiskScore
        = p.totalRiskScore * 0.95 + a.riskScore
    ∧ (updateRiskProfile th now (some p) a).averageRiskScore
        = (updateRiskProfile th now (some p) a).totalRiskScore
          / (((updateRiskProfile th now (some p) a).messageCount : ℚ) * 0.95
              + 1)
    ∧ (updateRiskProfile th now (some p) a).highRiskCount
        = (if a.riskScore ≥ th then p.highRiskCount + 1
           else p.highRiskCount) := by
  obtain ⟨hmc, htot, havg, hhr, _, _⟩ := updateRiskProfile_fields th now p a
  refine ⟨hmc, ?_, ?_, hhr⟩
  · rw [htot]
    simp [decayFactor]
  · rw [havg, htot, hmc]
    simp [decayFactor]

/-- C3: for every argument (string or not) and every behavior of the external
sentiment primitive, the returned risk score lies in the closed unit
interval. -/
theorem C3_riskScore_unit_interval (sent : List Char → ℚ) (now : String)
    (v : JSValue) :
    0 ≤ (analyzeMessage sent now v).riskScore
    ∧ (analyzeMessage sent now v).riskScore ≤ 1 := by
  have hzero : (0 : ℚ) ≤ zeroAssessment.riskScore
      ∧ zeroAssessment.riskScore ≤ 1 := by
    constructor <;> simp [zeroAssessment]
  cases v with
  | nullV => simpa [analyzeMessage, jsFalsy] using hzero
  | undefinedV => simpa [analyzeMessage, jsFalsy] using hzero
  | num q => simpa [analyzeMessage, isStringVal] using hzero
  | boolV b => simpa [analyzeMessage, isStringVal] using hzero
  | str s =>
    by_cases hs : s = []
    · subst hs
      simpa [analyzeMessage, jsFalsy] using hzero
    · rw [analyzeMessage_str sent now s hs, analyzeBody_riskScore]
      have h1 := sentimentRisk_nonneg (sent s)
      have h2 := categoryRiskTotal_nonneg (s.map Char.toLower)
      have h3 : (0 : ℚ) ≤
          (if capsRatio s > 0.5 ∧ s.length > 10 then (0.1 : ℚ) else 0) := by
        split_ifs <;> norm_num
      have h4 : (0 : ℚ) ≤ (if hasSpamRun s then (0.05 : ℚ) else 0) := by
        split_ifs <;> norm_num
      constructor
      · exact le_min (by linarith) (by norm_num)
      · exact min_le_right _ _

/-- C8: the classifier never fails; null, undefined, empty-string, numeric
and boolean arguments all produce the zero assessment with risk 0 and no
flags. -/
theorem C8_degenerate_inputs (sent : List Char → ℚ) (now : String) (q : ℚ)
    (b : Bool) :
    analyzeMessage sent now JSValue.nullV = zeroAssessment
    ∧ analyzeMessage sent now JSValue.undefinedV = zeroAssessment
    ∧ analyzeMessage sent now (JSValue.str []) = zeroAssessment
    ∧ analyzeMessage sent now (JSValue.num q) = zeroAssessment
    ∧ analyzeMessage sent now (JSValue.boolV b) = zeroAssessment
    ∧ zeroAssessment.riskScore = 0 ∧ zeroAssessment.flags = [] := by
  refine ⟨rfl, rfl, rfl, ?_, ?_, rfl, rfl⟩ <;>
    simp [analyzeMessage, isStringVal]

/-- C9: the sentiment channel contributes min(|polarity| / 20, 0.3) for
negative polarity and 0 otherwise, so it is bounded by 0.3; and this is
exactly the sentiment summand of the risk score of every analyzed string. -/
theorem C9_sentiment_channel (q : ℚ) (sent : List Char → ℚ) (now : String)
    (s : List Char) (hs : s ≠ []) :
    (q < 0 → sentimentRisk q = min (|q| / 20) 0.3)
    ∧ (0 ≤ q → sentimentRisk q = 0)
    ∧ sentimentRisk q ≤ 0.3
    ∧ (analyzeMessage sent now (JSValue.str s)).riskScore
        = min (sentimentRisk (sent s)
          + categoryRiskTotal (s.map Char.toLower)
          + (if capsRatio s > 0.5 ∧ s.length > 10 then 0.1 else 0)
          + (if hasSpamRun s then 0.05 else 0)) 1 := by
  refine ⟨?_, ?_, sentimentRisk_le q, ?_⟩
  · intro h
    simp [sentimentRisk, h]
  · intro h
    simp [sentimentRisk, not_lt.mpr h]
  · rw [analyzeMessage_str sent now s hs, analyzeBody_riskScore]

/-- Witness for C9 at polarity -2 on content with no matches. -/
theorem C9_witness :
    sentimentRisk (-2) = min (|(-2 : ℚ)| / 20) 0.3 :=
  (C9_sentiment_channel (-2) sentZero tsSample ("ok".toList)
    (by decide)).1 (by norm_num)

/-- C10: the degenerate zero assessment carries no analyzedAt timestamp,
while every string that passes the guard is stamped. -/
theorem C10_analyzedAt_presence (sent : List Char → ℚ) (now : String)
    (s : List Char) (q : ℚ) (b : Bool) (hs : s ≠ []) :
    zeroAssessment.analyzedAt = none
    ∧ (analyzeMessage sent now JSValue.nullV).analyzedAt = none
    ∧ (analyzeMessage sent now JSValue.undefinedV).analyzedAt = none
    ∧ (analyzeMessage sent now (JSValue.str [])).analyzedAt = none
    ∧ (analyzeMessage sent now (JSValue.num q)).analyzedAt = none
    ∧ (analyzeMessage sent now (JSValue.boolV b)).analyzedAt = none
    ∧ (analyzeMessage sent now (JSValue.str s)).analyzedAt = some now := by
  refine ⟨rfl, rfl, rfl, rfl, ?_, ?_, ?_⟩
  · simp [analyzeMessage, isStringVal, zeroAssessment]
  · simp [analyzeMessage, isStringVal, zeroAssessment]
  · rw [analyzeMessage_str sent now s hs, analyzeBody_analyzedAt]

/-- Witness for C10 on a nonempty string. -/
theorem C10_witness :
    (analyzeMessage sentZero tsSample
      (JSValue.str ("ok".toList))).analyzedAt = some tsSample :=
  (C10_analyzedAt_presence sentZero tsSample ("ok".toList) 0 false
    (by decide)).2.2.2.2.2.2

/-- C2 (amended): trendingUp is left unchanged exactly when the post-update
message count is at most 5 (prior count at most 4); once the post-update
count exceeds 5 — which already happens at a prior count of 5 — trendingUp
becomes true exactly when the incoming score exceeds 1.2 times the newly
updated average. -/
theorem C2_amended_trend_gating (th : ℚ) (now : String) (p : RiskProfile)
    (a : RiskAssessment) :
    (p.messageCount + 1 ≤ 5 →
      (updateRiskProfile th now (some p) a).trendingUp = p.trendingUp)
    ∧ (p.messageCount + 1 > 5 →
      ((updateRiskProfile th now (some p) a).trendingUp = true ↔
        a.riskScore >
          (updateRiskProfile th now (some p) a).averageRiskScore * 1.2)) := by
  obtain ⟨_, _, havg, _, _, htr⟩ := updateRiskProfile_fields th now p a
  constructor
  · intro h
    rw [htr, if_neg (by omega)]
  · intro h
    rw [htr, if_pos h, havg]
    simp

/-- Witness for C2 (amended): its two branches at prior counts 0 and 9. -/
theorem C2_amended_witness :
    (updateRiskProfile 0.8 tsSample (some defaultProfile) assessOne).trendingUp
        = defaultProfile.trendingUp
    ∧ ((updateRiskProfile 0.8 tsSample
          (some { defaultProfile with messageCount := 9 })
          assessOne).trendingUp = true ↔
        assessOne.riskScore >
          (updateRiskProfile 0.8 tsSample
            (some { defaultProfile with messageCount := 9 })
            assessOne).averageRiskScore * 1.2) :=
  ⟨(C2_amended_trend_gating 0.8 tsSample defaultProfile assessOne).1
      (by simp [defaultProfile]),
    (C2_amended_trend_gating 0.8 tsSample
        { defaultProfile with messageCount := 9 } assessOne).2
      (by simp [defaultProfile])⟩

/-- Counterexample to C2 as stated: a profile with exactly 5 prior messages
(prior messageCount ≤ 5) does have its trendingUp recomputed — a maximal
incoming score flips it from false to true, because the code gates on the
already-incremented count. -/
theorem C2_counterexample_prior_five :
    profileFive.messageCount ≤ 5
    ∧ profileFive.trendingUp = false
    ∧ (updateRiskProfile 0.8 tsSample (some profileFive) assessOne).trendingUp
        = true := by
  refine ⟨by norm_num [profileFive, defaultProfile], rfl, ?_⟩
  obtain ⟨_, _, _, _, _, htr⟩ :=
    updateRiskProfile_fields 0.8 tsSample profileFive assessOne
  rw [htr, if_pos (by norm_num [profileFive, defaultProfile])]
  rw [decide_eq_true_eq]
  norm_num [profileFive, defaultProfile, assessOne, decayFactor]

/-- C4: along any stream of unit-interval assessments from the all-zero
default profile, the average stays in the unit interval, and one further
update never decreases the message count or any flag-history count. -/
theorem C4_profile_invariants (th : ℚ) (now : String)
    (l : List RiskAssessment) (a : RiskAssessment) (f : String)
    (hl : ∀ b ∈ l, 0 ≤ b.riskScore ∧ b.riskScore ≤ 1) :
    0 ≤ (applyUpdates th now defaultProfile l).averageRiskScore
    ∧ (applyUpdates th now defaultProfile l).averageRiskScore ≤ 1
    ∧ (applyUpdates th now defaultProfile l).messageCount
        ≤ (updateRiskProfile th now
            (some (applyUpdates th now defaultProfile l)) a).messageCount
    ∧ flagCount (applyUpdates th now defaultProfile l).flagHistory f
        ≤ flagCount (updateRiskProfile th now
            (some (applyUpdates th now defaultProfile l)) a).flagHistory f := by
  obtain ⟨_, _, h3, h4⟩ :=
    applyUpdates_invariant th now l defaultProfile hl defaultProfile_invariant
  obtain ⟨hmc, _, _, _, hfh, _⟩ :=
    updateRiskProfile_fields th now (applyUpdates th now defaultProfile l) a
  refine ⟨h3, h4, ?_, ?_⟩
  · rw [hmc]
    omega
  · rw [hfh]
    exact flagCount_foldl_mono _ _ _

/-- Witness for C4: a two-message stream of unit-interval scores. -/
theorem C4_witness :
    0 ≤ (applyUpdates 0.8 tsSample defaultProfile
          [assessHalf, assessOne]).averageRiskScore
    ∧ (applyUpdates 0.8 tsSample defaultProfile
          [assessHalf, assessOne]).averageRiskScore ≤ 1
    ∧ (applyUpdates 0.8 tsSample defaultProfile
          [assessHalf, assessOne]).messageCount
        ≤ (updateRiskProfile 0.8 tsSample
            (some (applyUpdates 0.8 tsSample defaultProfile
              [assessHalf, assessOne])) assessOne).messageCount
    ∧ flagCount (applyUpdates 0.8 tsSample defaultProfile
          [assessHalf, assessOne]).flagHistory violenceName
        ≤ flagCount (updateRiskProfile 0.8 tsSample
            (some (applyUpdates 0.8 tsSample defaultProfile
              [assessHalf, assessOne])) assessOne).flagHistory violenceName :=
  C4_profile_invariants 0.8 tsSample [assessHalf, assessOne] assessOne
    violenceName
    (by
      intro b hb
      rcases List.mem_cons.mp hb with rfl | hb'
      · constructor <;> norm_num [assessHalf]
      · rcases List.mem_cons.mp hb' with rfl | hb''
        · constructor <;> norm_num [assessOne]
        · cases hb'')

/-- C7: the alert gate fires exactly at the configured high threshold, and
the severity label is a pure banding of the triggering score into
Low, Medium, High, Critical with inclusive lower bounds and exclusive upper
bounds. -/
theorem C7_alert_gate_and_banding (low medium high r : ℚ)
    (h0 : 0 ≤ r) (hlm : low ≤ medium) (hmh : medium ≤ high) :
    (shouldAlert high r = true ↔ r ≥ high)
    ∧ (getRiskLevel low medium high r = lowLabel ↔ (0 ≤ r ∧ r < low))
    ∧ (getRiskLevel low medium high r = mediumLabel ↔ (low ≤ r ∧ r < medium))
    ∧ (getRiskLevel low medium high r = highLabel ↔ (medium ≤ r ∧ r < high))
    ∧ (getRiskLevel low medium high r = criticalLabel ↔ high ≤ r) := by
  refine ⟨by simp [shouldAlert], ?_, ?_, ?_, ?_⟩ <;>
    unfold getRiskLevel <;>
    split_ifs with h1 h2 h3 <;>
    simp [lowLabel, mediumLabel, highLabel, criticalLabel]
  · exact ⟨h0, h1⟩
  · intro hx
    exact not_lt.mp h1
  · intro hx
    exact not_lt.mp h1
  · intro hx
    exact not_lt.mp h1
  · intro hx
    linarith
  · exact ⟨not_lt.mp h1, h2⟩
  · intro hx
    exact not_lt.mp h2
  · intro hx
    exact not_lt.mp h2
  · intro hx
    linarith
  · intro hx
    linarith
  · exact ⟨not_lt.mp h2, h3⟩
  · intro hx
    exact not_lt.mp h3
  · linarith
  · linarith
  · exact h3
  · exact not_lt.mp h3

/-- Witness for C7 at the default thresholds 0.3 / 0.6 / 0.8 and score
0.7. -/
theorem C7_witness :
    getRiskLevel 0.3 0.6 0.8 0.7 = highLabel ↔
      ((0.6 : ℚ) ≤ 0.7 ∧ (0.7 : ℚ) < 0.8) :=
  (C7_alert_gate_and_banding 0.3 0.6 0.8 0.7 (by norm_num) (by norm_num)
    (by norm_num)).2.2.2.1

/-- C5: for every string content, the category entries are exactly the
lexicon entries with a positive count of matched terms (count and terms
recorded, one count per distinct term); a positive count puts the category
name into the flags and contributes exactly min(count x 0.15, 0.5), and the
risk score is the clamp of the independent sum of all channels. -/
theorem C5_category_matching (sent : List Char → ℚ) (now : String)
    (s : List Char) (cat : String) (kws : List (List Char))
    (hs : s ≠ []) (hmem : (cat, kws) ∈ RISK_PATTERNS) :
    (analyzeMessage sent now (JSValue.str s)).categories
        = RISK_PATTERNS.filterMap (catEntry (s.map Char.toLower))
    ∧ (0 < (matchedWords (s.map Char.toLower) kws).length →
        cat ∈ (analyzeMessage sent now (JSValue.str s)).flags)
    ∧ (0 < (matchedWords (s.map Char.toLower) kws).length →
        categoryContrib (s.map Char.toLower) (cat, kws)
          = min (((matchedWords (s.map Char.toLower) kws).length : ℚ) * 0.15)
              0.5)
    ∧ (analyzeMessage sent now (JSValue.str s)).riskScore
        = min (sentimentRisk (sent s)
          + (RISK_PATTERNS.map (categoryContrib (s.map Char.toLower))).sum
          + (if capsRatio s > 0.5 ∧ s.length > 10 then 0.1 else 0)
          + (if hasSpamRun s then 0.05 else 0)) 1
    ∧ kws.Nodup := by
  have hnd : kws.Nodup := by
    fin_cases hmem <;> decide
  rw [analyzeMessage_str sent now s hs]
  refine ⟨analyzeBody_categories sent now s, ?_, ?_, ?_, hnd⟩
  · intro hpos
    rw [analyzeBody_flags, mem_jsSetDedup]
    apply List.mem_append_left
    apply List.mem_append_left
    apply List.mem_filterMap.mpr
    refine ⟨(cat, kws), hmem, ?_⟩
    simp [catFlag, hpos]
  · intro hpos
    simp [categoryContrib, hpos]
  · rw [analyzeBody_riskScore]
    rfl

/-- Witness for C5: the single word `kill` trips the violence category. -/
theorem C5_witness :
    violenceName ∈
      (analyzeMessage sentZero tsSample
        (JSValue.str ("kill".toList))).flags :=
  ((C5_category_matching sentZero tsSample ("kill".toList) violenceName
      violenceTerms (by decide) (by decide)).2.1 (by decide))

/-- C6 (amended): the caps heuristic is as claimed, and the spam heuristic
fires for a five-long consecutive run of any character other than the four
line terminators (which the dot of the JS regex cannot match); each heuristic
contributes its exact increment independently inside the clamped sum. -/
theorem C6_amended_behavioral_heuristics (sent : List Char → ℚ)
    (now : String) (s : List Char) (c : Char) (pre rest : List Char)
    (hs : s ≠ []) :
    ((capsRatio s > 0.5 ∧ s.length > 10) →
      excessiveCapsFlag ∈ (analyzeMessage sent now (JSValue.str s)).flags)
    ∧ (isLineTerminator c = false → s = pre ++ List.replicate 5 c ++ rest →
      spamPatternFlag ∈ (analyzeMessage sent now (JSValue.str s)).flags)
    ∧ (analyzeMessage sent now (JSValue.str s)).riskScore
        = min (sentimentRisk (sent s)
          + categoryRiskTotal (s.map Char.toLower)
          + (if capsRatio s > 0.5 ∧ s.length > 10 then 0.1 else 0)
          + (if hasSpamRun s then 0.05 else 0)) 1 := by
  rw [analyzeMessage_str sent now s hs]
  refine ⟨?_, ?_, analyzeBody_riskScore sent now s⟩
  · intro hcaps
    rw [analyzeBody_flags, mem_jsSetDedup]
    apply List.mem_append_left
    apply List.mem_append_right
    rw [if_pos hcaps]
    exact List.mem_singleton.mpr rfl
  · intro hc hrun
    rw [analyzeBody_flags, mem_jsSetDedup]
    apply List.mem_append_right
    rw [hrun, hasSpamRun_of_run c hc pre rest]
    simp

/-- Witness for C6 (amended): twelve capital As are over half uppercase,
longer than ten characters, and contain a five-long run of a
non-line-terminator character, so both behavioral flags appear. -/
theorem C6_amended_witness :
    excessiveCapsFlag ∈
      (analyzeMessage sentZero tsSample (JSValue.str capsContent)).flags
    ∧ spamPatternFlag ∈
      (analyzeMessage sentZero tsSample (JSValue.str capsContent)).flags :=
  ⟨(C6_amended_behavioral_heuristics sentZero tsSample capsContent 'A' []
        (List.replicate 7 'A') (by decide)).1
      (by
        constructor
        · have h1 : capsCount capsContent = 12 := by decide
          have h2 : capsContent.length = 12 := by decide
          rw [capsRatio, h1, h2]
          norm_num
        · decide),
    (C6_amended_behavioral_heuristics sentZero tsSample capsContent 'A' []
        (List.replicate 7 'A') (by decide)).2.1 (by decide) (by decide)⟩

/-- Counterexample to C6 as stated: five consecutive newlines are a
character repeated five times, yet the classifier raises no flag at all and
adds no risk, because the dot of `/(.)\1{4,}/` does not match a line
terminator. -/
theorem C6_counterexample_newline_run :
    newlineRun = List.replicate 5 '\n'
    ∧ (analyzeMessage sentZero tsSample (JSValue.str newlineRun)).flags = []
    ∧ (analyzeMessage sentZero tsSample
        (JSValue.str newlineRun)).riskScore = 0 := by
  have hflt : RISK_PATTERNS.filterMap
      (catFlag (newlineRun.map Char.toLower)) = [] := by decide
  have hcaps : ¬ (capsRatio newlineRun > 0.5 ∧ newlineRun.length > 10) := by
    rintro ⟨-, h⟩
    exact absurd h (by decide)
  have hspam : hasSpamRun newlineRun = false := by decide
  have hsent : sentimentRisk (sentZero newlineRun) = 0 := by
    rw [show sentZero newlineRun = (0 : ℚ) from rfl, sentimentRisk,
      if_neg (lt_irrefl (0 : ℚ))]
  have hcat : categoryRiskTotal (newlineRun.map Char.toLower) = 0 := by
    unfold categoryRiskTotal
    apply List.sum_eq_zero
    intro x hx
    obtain ⟨e, he, rfl⟩ := List.mem_map.mp hx
    have hlen : ¬ 0 < (matchedWords (newlineRun.map Char.toLower) e.2).length := by
      fin_cases he <;> decide
    unfold categoryContrib
    rw [if_neg hlen]
  refine ⟨rfl, ?_, ?_⟩
  · rw [analyzeMessage_str sentZero tsSample newlineRun (by decide),
      analyzeBody_flags, hflt, if_neg hcaps, hspam]
    rfl
  · rw [analyzeMessage_str sentZero tsSample newlineRun (by decide),
      analyzeBody_riskScore, hsent, hcat, if_neg hcaps, hspam]
    norm_num
